import Mathlib

set_option maxHeartbeats 1000000

/-!
Verification of the matching/quantity logic of the Jubilee Inventory
repository. The two Python sources (src/jubilee_streamlit/app.py and
src/app.py) are shallowly embedded below: Python strings are modelled as
lists of characters, and the ASCII fragment of the string methods the code
uses (split, strip, isdigit, lower, int, str, join) is defined explicitly
so that every function is executable and provable.
-/

abbrev Chars := List Char

/-- ASCII whitespace removed by the Python default str.strip: space, tab,
newline, carriage return, vertical tab, form feed. -/
def pyIsSpace (c : Char) : Bool :=
  c == ' ' || c == '\t' || c == '\n' || c == '\r' ||
    c == Char.ofNat 11 || c == Char.ofNat 12

/-- Python str.strip: drop whitespace from both ends. -/
def stripChars (s : Chars) : Chars :=
  ((s.dropWhile pyIsSpace).reverse.dropWhile pyIsSpace).reverse

/-- Helper of splitOnChar: returns the segment before the first separator
and the list of the remaining segments. -/
def splitOnCharAux (sep : Char) : Chars → Chars × List Chars
  | [] => ([], [])
  | c :: cs =>
    let r := splitOnCharAux sep cs
    if c = sep then ([], r.1 :: r.2) else (c :: r.1, r.2)

/-- Python str.split with a one-character separator. The empty string
yields one empty segment, exactly as in Python. -/
def splitOnChar (sep : Char) (s : Chars) : List Chars :=
  (splitOnCharAux sep s).1 :: (splitOnCharAux sep s).2

/-- Python membership test of a character combined with split(sep, 1):
some (before, after) when sep occurs, splitting at its first occurrence,
none when it does not occur. -/
def splitFirst (sep : Char) : Chars → Option (Chars × Chars)
  | [] => none
  | c :: cs =>
    if c = sep then some ([], cs)
    else
      match splitFirst sep cs with
      | none => none
      | some (a, b) => some (c :: a, b)

/-- Python str.isdigit, restricted to ASCII decimal digits. -/
def pyIsDigitChars (s : Chars) : Bool :=
  !s.isEmpty && s.all Char.isDigit

/-- Python int() applied to a string of decimal digits (the only shape the
embedded code feeds it after an isdigit test): most-significant-first
accumulation. -/
def charsToNat (s : Chars) : Nat :=
  s.foldl (fun n c => 10 * n + (c.toNat - '0'.toNat)) 0

/-- Little-endian decimal digits of a natural number, with explicit fuel
so that the definition is structural and evaluates in the kernel. -/
def natDigitsAux : Nat → Nat → List Nat
  | 0, _ => []
  | fuel + 1, n => if n = 0 then [] else n % 10 :: natDigitsAux fuel (n / 10)

/-- Little-endian decimal digits of a natural number. -/
def natDigits (n : Nat) : List Nat := natDigitsAux n n

/-- Python str() of a natural number: its decimal digit characters. -/
def natStr (n : Nat) : Chars :=
  if n = 0 then ['0'] else ((natDigits n).map Nat.digitChar).reverse

/-- Python str() of an integer. -/
def intStr (n : Int) : Chars :=
  if n < 0 then '-' :: natStr n.natAbs else natStr n.natAbs

/-- Python sep.join(parts). -/
def joinWith (sep : Chars) : List Chars → Chars
  | [] => []
  | [p] => p
  | p :: q :: ps => p ++ sep ++ joinWith sep (q :: ps)

/-! ## The matching serializer (src/jubilee_streamlit/app.py) -/

/-- The body of one iteration of the parse_matching_string loop, for one
comma-separated segment: the colon-membership test together with
split(colon, 1) — modelled jointly by splitFirst — then strip of both
sides and the isdigit guard; none means the segment contributes nothing. -/
def parse_segment (part : Chars) : Option (Chars × Int) :=
  match splitFirst ':' part with
  | none => none
  | some (cp, pp) =>
    let color := stripChars cp
    let pcs := stripChars pp
    if pyIsDigitChars pcs then some (color, (charsToNat pcs : Int)) else none

/-- One iteration of the parse_matching_string loop: append the parsed
pair and add its count to the running total, or keep the accumulator. -/
def parseLoopStep (acc : List (Chars × Int) × Int) (part : Chars) :
    List (Chars × Int) × Int :=
  match parse_segment part with
  | none => acc
  | some p => (acc.1 ++ [p], acc.2 + p.2)

/-- parse_matching_string of src/jubilee_streamlit/app.py lines 120-134,
on character lists: the truthiness test of the argument, then the loop
over the comma-separated segments. -/
def parseMatchingChars (matching : Chars) : List (Chars × Int) × Int :=
  if matching = [] then ([], 0)
  else (splitOnChar ',' matching).foldl parseLoopStep ([], 0)

/-- parse_matching_string at the String interface of the source. -/
def parse_matching_string (matching : String) : List (String × Int) × Int :=
  let r := parseMatchingChars matching.data
  (r.1.map (fun p => (String.mk p.1, p.2)), r.2)

/-- One iteration of the build_matching_string loop (lines 140-146):
strip the color — the disjunction with the empty string only guards the
Python None, a plain string is left to strip — take str(pcs).strip(), and
when the color is non-empty and the count string is all digits, append
the formatted part (color, a colon, then the reparsed count) and add the
count to the running total. -/
def buildStep (acc : List Chars × Int) (p : Chars × Int) : List Chars × Int :=
  let color := stripChars p.1
  let pcs_str := stripChars (intStr p.2)
  if !color.isEmpty && pyIsDigitChars pcs_str then
    (acc.1 ++ [color ++ ':' :: intStr (charsToNat pcs_str : Int)],
     acc.2 + (charsToNat pcs_str : Int))
  else acc

/-- build_matching_string of src/jubilee_streamlit/app.py lines 136-147,
on character lists: run the loop, then join the parts with a comma and a
space. -/
def buildMatchingChars (pairs : List (Chars × Int)) : Chars × Int :=
  let r := pairs.foldl buildStep ([], 0)
  (joinWith [',', ' '] r.1, r.2)

/-- build_matching_string at the String interface of the source. -/
def build_matching_string (pairs : List (String × Int)) : String × Int :=
  let r := buildMatchingChars (pairs.map (fun p => (p.1.data, p.2)))
  (String.mk r.1, r.2)

/-! ## The add form of src/app.py: dict accumulation, join, totals -/

/-- Python dict assignment on an insertion-ordered dictionary, modelled as
an association list: an existing key keeps its position and receives the
new value, a new key is appended at the end. -/
def dictSet (d : List (String × Int)) (k : String) (v : Int) :
    List (String × Int) :=
  if d.any (fun q => q.1 == k) then
    d.map (fun q => if q.1 == k then (q.1, v) else q)
  else d ++ [(k, v)]

/-- The matching_dict accumulation of show_add_form (src/app.py lines
94-109): one dict assignment per form row whose color name is non-empty
(the truthiness test on name). -/
def matchingDictOfRows (rows : List (String × Int)) : List (String × Int) :=
  rows.foldl (fun d r => if r.1 = "" then d else dictSet d r.1 r.2) []

/-- The matching serializer of show_add_form (src/app.py line 118): join
of the dict items with a positive value, each formatted as the key, a
colon, then the value. -/
def show_add_form_matching (items : List (String × Int)) : String :=
  String.mk (joinWith [',', ' ']
    ((items.filter (fun p => 0 < p.2)).map
      (fun p => p.1.data ++ ':' :: intStr p.2)))

/-- The PCS total of show_add_form (src/app.py line 119): the sum of the
values of the accumulated dict. -/
def show_add_form_pcs (rows : List (String × Int)) : Int :=
  ((matchingDictOfRows rows).map (fun p => p.2)).sum

/-! ## Record identity checks -/

/-- A Python runtime error raised by one of the embedded code paths. -/
inductive PyError
  | typeError
  | nameError
deriving DecidableEq

/-- A row of the SQLite products table, restricted to the columns
dno_exists inspects. -/
structure DbProduct where
  id : Int
  dno : String

/-- The COUNT(*) query dno_exists executes (src/jubilee_streamlit/app.py
lines 86-88): the SQL equality dno=? on a TEXT column uses the default
BINARY collation, i.e. exact case-sensitive string equality, and only the
design number is compared; the exclude parameter is guarded by Python
truthiness, so None and 0 both run the unfiltered query. -/
def dno_exists_query_count (rows : List DbProduct) (dno : String)
    (exclude_id : Option Int) : Nat :=
  match exclude_id with
  | some e =>
    if e ≠ 0 then (rows.filter (fun r => r.dno == dno && r.id != e)).length
    else (rows.filter (fun r => r.dno == dno)).length
  | none => (rows.filter (fun r => r.dno == dno)).length

/-- dno_exists of src/jubilee_streamlit/app.py lines 83-91: after running
the count query, line 89 evaluates fetchone() greater than 0; fetchone()
returns the one-element row tuple and a tuple-to-int comparison raises
TypeError in Python 3, so every call raises instead of returning a
Bool. -/
def dno_exists (rows : List DbProduct) (dno : String)
    (exclude_id : Option Int) : Except PyError Bool :=
  let _hits := dno_exists_query_count rows dno exclude_id
  Except.error PyError.typeError

/-- A record of the Google sheet, restricted to the fields the working
duplicate check of src/app.py inspects: get_all_records() rows keyed by
the Company and D.NO columns (missing keys default to the empty string,
mirroring r.get with default). -/
structure SheetRecord where
  company : String
  dno : String

/-- Python str.lower, ASCII fragment (the business keys of the claims are
ASCII). -/
def pyLower (s : String) : String := String.mk (s.data.map Char.toLower)

/-- The duplicate check of show_add_form (src/app.py lines 137-141): some
existing record matches company and D.NO case-insensitively. -/
def add_form_conflict (existing : List SheetRecord)
    (company dno : String) : Bool :=
  existing.any (fun r =>
    pyLower r.company == pyLower company && pyLower r.dno == pyLower dno)

/-- The duplicate check of the edit form in show_inventory (src/app.py
lines 331-338): the loop iterates over the name existing, which is bound
only inside show_add_form and is unbound in show_inventory, so the check
raises NameError before any comparison runs; were the records fetched,
they come from sheet.get_all_records() and carry no SheetRowNum key — a
pandas column added at line 228 only — so the row-number read at line 336
would raise KeyError. Every call raises. -/
def edit_form_conflict (_records : List SheetRecord)
    (_company _dno : String) (_row_num : Int) : Except PyError Bool :=
  Except.error PyError.nameError

/-! ## Pending pieces -/

/-- Pending as computed per row by show_inventory (src/app.py line 223):
PCS minus Delivery_PCS, with no clamping. -/
def pendingPieces (total delivered : Int) : Int := total - delivered

/-- A value of one column of a fetched database row. -/
inductive DbVal
  | int (v : Int)
  | text (s : String)
  | null
deriving DecidableEq

/-- Python int(x or 0) on a database value: None and the empty string are
falsy and give 0; an integer is returned as is; a non-empty string must
parse as a decimal integer (optional sign, surrounding whitespace),
otherwise int raises and the result is none. -/
def pyIntOrZero : DbVal → Option Int
  | .null => some 0
  | .int v => some v
  | .text s =>
    if s = "" then some 0
    else
      match stripChars s.data with
      | '-' :: ds =>
        if pyIsDigitChars ds then some (-(charsToNat ds : Int)) else none
      | '+' :: ds =>
        if pyIsDigitChars ds then some ((charsToNat ds : Int)) else none
      | ds => if pyIsDigitChars ds then some ((charsToNat ds : Int)) else none

/-- Pending as computed by load_table_dataframe
(src/jubilee_streamlit/app.py lines 209-212): inside try, the code reads
tuple indexes 27 and 28 of the fetched row and subtracts; any exception
— in particular the IndexError those indexes raise on the 12-column
products row, or a failing int conversion — is caught and pending is set
to 0. -/
def load_table_pending (r : List DbVal) : Int :=
  match r.get? 27, r.get? 28 with
  | some a, some b =>
    match pyIntOrZero a, pyIntOrZero b with
    | some x, some y => x - y
    | _, _ => 0
  | _, _ => 0

/-! ## The CSV import handler (src/jubilee_streamlit/app.py) -/

/-- The header row the import handler requires, in order (line 502). -/
def expected_csv_header : List String :=
  ["ID", "COMPANY NAME", "D.NO.", "MATCHING", "Diamond", "PCS",
   "DELIVERY PCS", "Assignee", "Type", "Rate", "Total", "Image"]

/-- Outcome reported by the import handler: the schema error message, or
success with the count of imported rows. -/
inductive CsvImportOutcome
  | schemaMismatch
  | ok (imported : Nat)
deriving DecidableEq

/-- One iteration of the import row loop (src/jubilee_streamlit/app.py
lines 509-526): a row whose length is not 12 is skipped by the explicit
continue; a 12-column row enters the try block, whose first expression
calls strip on the row list itself and raises AttributeError — and the
tuple indexes 24-33 read next would raise IndexError — which the bare
except turns into continue. No iteration inserts a record. -/
def csv_import_row_step (acc : List (List DbVal) × Nat)
    (row : List String) : List (List DbVal) × Nat :=
  if row.length ≠ 12 then acc
  else acc

/-- The Import CSV handler (src/jubilee_streamlit/app.py lines 495-529):
the first CSV row — None when the file is empty — is compared, order
sensitively, with the expected header list; on mismatch the handler
reports the schema error and touches nothing; on match it runs the row
loop over the remaining rows and commits its result. -/
def csv_import (csvRows : List (List String)) (db : List (List DbVal)) :
    List (List DbVal) × CsvImportOutcome :=
  match csvRows with
  | [] => (db, .schemaMismatch)
  | headers :: dataRows =>
    if headers = expected_csv_header then
      let r := dataRows.foldl csv_import_row_step (db, 0)
      (r.1, .ok r.2)
    else (db, .schemaMismatch)

/-! ## Helper lemmas: digits and decimal strings -/

lemma digitChar_isDigit {d : Nat} (h : d < 10) :
    (Nat.digitChar d).isDigit = true := by
  interval_cases d <;> decide

lemma digitChar_toNat {d : Nat} (h : d < 10) :
    (Nat.digitChar d).toNat - '0'.toNat = d := by
  interval_cases d <;> decide

lemma isDigit_not_space {c : Char} (h : c.isDigit = true) :
    pyIsSpace c = false := by
  unfold pyIsSpace
  rcases eq_or_ne c ' ' with rfl | h1
  · exact absurd h (by decide)
  rcases eq_or_ne c '\t' with rfl | h2
  · exact absurd h (by decide)
  rcases eq_or_ne c '\n' with rfl | h3
  · exact absurd h (by decide)
  rcases eq_or_ne c '\r' with rfl | h4
  · exact absurd h (by decide)
  rcases eq_or_ne c (Char.ofNat 11) with rfl | h5
  · exact absurd h (by decide)
  rcases eq_or_ne c (Char.ofNat 12) with rfl | h6
  · exact absurd h (by decide)
  simp only [Bool.or_eq_false_iff, beq_eq_false_iff_ne, ne_eq]
  exact ⟨⟨⟨⟨⟨h1, h2⟩, h3⟩, h4⟩, h5⟩, h6⟩

lemma isDigit_ne_colon {c : Char} (h : c.isDigit = true) : c ≠ ':' := by
  rintro rfl; exact absurd h (by decide)

lemma isDigit_ne_comma {c : Char} (h : c.isDigit = true) : c ≠ ',' := by
  rintro rfl; exact absurd h (by decide)

lemma natDigitsAux_spec (fuel : Nat) : ∀ n : Nat, n ≤ fuel →
    (natDigitsAux fuel n).foldr (fun d a => 10 * a + d) 0 = n ∧
    (∀ d ∈ natDigitsAux fuel n, d < 10) ∧
    (n ≠ 0 → natDigitsAux fuel n ≠ []) := by
  induction fuel with
  | zero =>
    intro n hn
    have : n = 0 := Nat.le_zero.mp hn
    subst this
    simp [natDigitsAux]
  | succ f ih =>
    intro n hn
    by_cases hz : n = 0
    · subst hz; simp [natDigitsAux]
    · have hdiv : n / 10 ≤ f := by
        have h1 : n / 10 < n := Nat.div_lt_self (Nat.pos_of_ne_zero hz) (by omega)
        omega
      obtain ⟨v, bd, ne⟩ := ih (n / 10) hdiv
      refine ⟨?_, ?_, ?_⟩
      · simp only [natDigitsAux, if_neg hz, List.foldr_cons, v]
        omega
      · intro d hd
        simp only [natDigitsAux, if_neg hz, List.mem_cons] at hd
        rcases hd with rfl | hd
        · omega
        · exact bd d hd
      · intro _
        simp [natDigitsAux, if_neg hz]

lemma natDigits_foldr (n : Nat) :
    (natDigits n).foldr (fun d a => 10 * a + d) 0 = n :=
  (natDigitsAux_spec n n le_rfl).1

lemma natDigits_lt (n : Nat) : ∀ d ∈ natDigits n, d < 10 :=
  (natDigitsAux_spec n n le_rfl).2.1

lemma natDigits_ne_nil {n : Nat} (h : n ≠ 0) : natDigits n ≠ [] :=
  (natDigitsAux_spec n n le_rfl).2.2 h

lemma natStr_ne_nil (n : Nat) : natStr n ≠ [] := by
  unfold natStr
  split
  · simp
  · simp only [ne_eq, List.reverse_eq_nil_iff, List.map_eq_nil_iff]
    exact natDigits_ne_nil (by assumption)

lemma mem_natStr_isDigit {n : Nat} {c : Char} (hc : c ∈ natStr n) :
    c.isDigit = true := by
  unfold natStr at hc
  split at hc
  · simp only [List.mem_singleton] at hc
    subst hc; decide
  · simp only [List.mem_reverse, List.mem_map] at hc
    obtain ⟨d, hd, rfl⟩ := hc
    exact digitChar_isDigit (natDigits_lt n d hd)

lemma pyIsDigit_natStr (n : Nat) : pyIsDigitChars (natStr n) = true := by
  unfold pyIsDigitChars
  cases h : natStr n with
  | nil => exact absurd h (natStr_ne_nil n)
  | cons a t =>
    simp only [List.isEmpty_cons, Bool.not_false, Bool.true_and, List.all_eq_true]
    intro c hc
    exact mem_natStr_isDigit (h ▸ hc)

lemma charsToNat_natStr (n : Nat) : charsToNat (natStr n) = n := by
  unfold natStr
  split
  · rename_i h; subst h; decide
  · unfold charsToNat
    rw [List.foldl_reverse, List.foldr_map]
    have : ∀ ds : List Nat, (∀ d ∈ ds, d < 10) →
        ds.foldr (fun d a => 10 * a + ((Nat.digitChar d).toNat - '0'.toNat)) 0 =
          ds.foldr (fun d a => 10 * a + d) 0 := by
      intro ds hds
      induction ds with
      | nil => rfl
      | cons d t iht =>
        simp only [List.foldr_cons]
        rw [iht (fun x hx => hds x (List.mem_cons_of_mem _ hx)),
          digitChar_toNat (hds d (List.mem_cons_self _ _))]
    rw [this (natDigits n) (natDigits_lt n), natDigits_foldr]

/-! ## Helper lemmas: strip -/

lemma dropWhile_of_forall_not {p : Char → Bool} {l : Chars}
    (h : ∀ c ∈ l, p c = false) : l.dropWhile p = l := by
  cases l with
  | nil => rfl
  | cons c t => simp [List.dropWhile_cons, h c (List.mem_cons_self _ _)]

lemma strip_of_no_space {s : Chars} (h : ∀ c ∈ s, pyIsSpace c = false) :
    stripChars s = s := by
  unfold stripChars
  rw [dropWhile_of_forall_not h,
    dropWhile_of_forall_not (fun c hc => h c (List.mem_reverse.mp hc)),
    List.reverse_reverse]

lemma stripChars_cons_space (s : Chars) :
    stripChars (' ' :: s) = stripChars s := by
  unfold stripChars
  rw [List.dropWhile_cons_of_pos (by decide)]

lemma mem_intStr {n : Int} {c : Char} (hc : c ∈ intStr n) :
    c = '-' ∨ c.isDigit = true := by
  unfold intStr at hc
  split at hc
  · rcases List.mem_cons.mp hc with rfl | hm
    · exact Or.inl rfl
    · exact Or.inr (mem_natStr_isDigit hm)
  · exact Or.inr (mem_natStr_isDigit hc)

lemma intStr_no_space {n : Int} : ∀ c ∈ intStr n, pyIsSpace c = false := by
  intro c hc
  rcases mem_intStr hc with rfl | hd
  · decide
  · exact isDigit_not_space hd

lemma stripChars_intStr (n : Int) : stripChars (intStr n) = intStr n :=
  strip_of_no_space intStr_no_space

lemma intStr_of_nonneg {n : Int} (h : 0 ≤ n) : intStr n = natStr n.toNat := by
  unfold intStr
  rw [if_neg (by omega), Int.natAbs_eq_iff.mpr (Or.inl (Int.toNat_of_nonneg h).symm)]

lemma pyIsDigit_intStr (n : Int) :
    pyIsDigitChars (intStr n) = decide (0 ≤ n) := by
  by_cases h : 0 ≤ n
  · rw [intStr_of_nonneg h, pyIsDigit_natStr, decide_eq_true h]
  · have hneg : n < 0 := by omega
    unfold intStr
    rw [if_pos hneg]
    unfold pyIsDigitChars
    have : ('-' :: natStr n.natAbs).all Char.isDigit = false := by
      simp only [List.all_cons, Bool.and_eq_false_iff]
      exact Or.inl (by decide)
    rw [this, decide_eq_false h, Bool.and_false]

lemma charsToNat_intStr {n : Int} (h : 0 ≤ n) :
    (charsToNat (intStr n) : Int) = n := by
  rw [intStr_of_nonneg h, charsToNat_natStr, Int.toNat_of_nonneg h]

/-! ## Helper lemmas: split and join -/

lemma splitOnCharAux_not_mem {sep : Char} {s : Chars} (h : sep ∉ s) :
    splitOnCharAux sep s = (s, []) := by
  induction s with
  | nil => rfl
  | cons c t ih =>
    have hc : ¬ c = sep := by rintro rfl; exact h (List.mem_cons_self _ _)
    have ht : sep ∉ t := fun hm => h (List.mem_cons_of_mem _ hm)
    simp [splitOnCharAux, hc, ih ht]

lemma splitOnCharAux_append {sep : Char} {a : Chars} (h : sep ∉ a)
    (rest : Chars) :
    splitOnCharAux sep (a ++ sep :: rest) =
      (a, (splitOnCharAux sep rest).1 :: (splitOnCharAux sep rest).2) := by
  induction a with
  | nil => simp [splitOnCharAux]
  | cons c t ih =>
    have hc : ¬ c = sep := by rintro rfl; exact h (List.mem_cons_self _ _)
    have ht : sep ∉ t := fun hm => h (List.mem_cons_of_mem _ hm)
    simp [splitOnCharAux, hc, ih ht]

lemma splitOnChar_not_mem {sep : Char} {s : Chars} (h : sep ∉ s) :
    splitOnChar sep s = [s] := by
  unfold splitOnChar
  rw [splitOnCharAux_not_mem h]

lemma splitOnChar_join (p : Chars) (ps : List Chars)
    (h : ∀ q ∈ p :: ps, ',' ∉ q) :
    splitOnChar ',' (joinWith [',', ' '] (p :: ps)) =
      p :: ps.map (fun q => ' ' :: q) := by
  induction ps generalizing p with
  | nil =>
    simp only [List.map_nil]
    exact splitOnChar_not_mem (h p (List.mem_cons_self _ _))
  | cons q ps ih =>
    have hp : ',' ∉ p := h p (List.mem_cons_self _ _)
    have hrest : ∀ r ∈ q :: ps, ',' ∉ r :=
      fun r hr => h r (List.mem_cons_of_mem _ hr)
    have hq := ih q hrest
    unfold splitOnChar at hq ⊢
    have hjoin : joinWith [',', ' '] (p :: q :: ps) =
        p ++ ',' :: (' ' :: joinWith [',', ' '] (q :: ps)) := by
      rw [joinWith]; simp
    rw [hjoin, splitOnCharAux_append hp]
    have hsp : splitOnCharAux ',' (' ' :: joinWith [',', ' '] (q :: ps)) =
        (' ' :: (splitOnCharAux ',' (joinWith [',', ' '] (q :: ps))).1,
         (splitOnCharAux ',' (joinWith [',', ' '] (q :: ps))).2) := by
      simp [splitOnCharAux]
    rw [hsp]
    simp only [List.cons.injEq] at hq
    simp [hq.1, hq.2]

lemma splitFirst_append {c : Chars} (h : ':' ∉ c) (ds : Chars) :
    splitFirst ':' (c ++ ':' :: ds) = some (c, ds) := by
  induction c with
  | nil => simp [splitFirst]
  | cons x t ih =>
    have hx : ¬ x = ':' := by rintro rfl; exact h (List.mem_cons_self _ _)
    have ht : ':' ∉ t := fun hm => h (List.mem_cons_of_mem _ hm)
    simp [splitFirst, hx, ih ht]

/-! ## Helper lemmas: the two fold loops -/

lemma parse_foldl (segs : List Chars) (acc : List (Chars × Int) × Int) :
    segs.foldl parseLoopStep acc =
      (acc.1 ++ segs.filterMap parse_segment,
       acc.2 + ((segs.filterMap parse_segment).map (fun p => p.2)).sum) := by
  induction segs generalizing acc with
  | nil => simp
  | cons s t ih =>
    rw [List.foldl_cons, ih]
    cases h : parse_segment s with
    | none => simp [parseLoopStep, h]
    | some p =>
      simp only [parseLoopStep, h, List.filterMap_cons, List.map_cons,
        List.sum_cons, List.append_assoc, List.singleton_append]
      exact Prod.ext rfl (by ring)

/-- The entries build_matching_string keeps: non-empty stripped color and
a non-negative count. -/
def buildKeeps (p : Chars × Int) : Bool :=
  !(stripChars p.1).isEmpty && decide (0 ≤ p.2)

/-- The part build_matching_string emits for a kept entry. -/
def buildFmt (p : Chars × Int) : Chars :=
  stripChars p.1 ++ ':' :: intStr p.2

lemma buildStep_eq (acc : List Chars × Int) (p : Chars × Int) :
    buildStep acc p =
      if buildKeeps p then (acc.1 ++ [buildFmt p], acc.2 + p.2) else acc := by
  simp only [buildStep, buildKeeps, buildFmt]
  rw [stripChars_intStr, pyIsDigit_intStr]
  by_cases h2 : 0 ≤ p.2
  · have hv : (charsToNat (intStr p.2) : Int) = p.2 := charsToNat_intStr h2
    rw [hv]
  · simp [decide_eq_false h2]

lemma build_foldl (pairs : List (Chars × Int)) (acc : List Chars × Int) :
    pairs.foldl buildStep acc =
      (acc.1 ++ (pairs.filter buildKeeps).map buildFmt,
       acc.2 + ((pairs.filter buildKeeps).map (fun p => p.2)).sum) := by
  induction pairs generalizing acc with
  | nil => simp
  | cons p t ih =>
    rw [List.foldl_cons, ih, buildStep_eq]
    by_cases h : buildKeeps p
    · simp only [h, if_true, List.filter_cons_of_pos, List.map_cons,
        List.sum_cons, List.append_assoc, List.singleton_append]
      exact Prod.ext rfl (by ring)
    · simp only [h, if_false, Bool.false_eq_true,
        List.filter_cons_of_neg]
      simp [h]

lemma buildMatchingChars_eq (pairs : List (Chars × Int)) :
    buildMatchingChars pairs =
      (joinWith [',', ' '] ((pairs.filter buildKeeps).map buildFmt),
       ((pairs.filter buildKeeps).map (fun p => p.2)).sum) := by
  unfold buildMatchingChars
  rw [build_foldl]
  simp

/-! ## Helper lemmas: small list facts -/

lemma filter_map_comm {α β : Type} (f : α → β) (p : β → Bool) (l : List α) :
    (l.map f).filter p = (l.filter (fun a => p (f a))).map f := by
  induction l with
  | nil => rfl
  | cons a t ih =>
    by_cases h : p (f a) <;> simp [h, ih]

lemma filterMap_eq_self {α : Type} (g : α → Option α) (l : List α)
    (h : ∀ x ∈ l, g x = some x) : l.filterMap g = l := by
  induction l with
  | nil => rfl
  | cons a t ih =>
    rw [List.filterMap_cons, h a (List.mem_cons_self _ _),
      ih (fun x hx => h x (List.mem_cons_of_mem _ hx))]

lemma map_mk_data (l : List (String × Int)) :
    l.map (fun p => (String.mk p.1.data, p.2)) = l := by
  induction l with
  | nil => rfl
  | cons a t ih => simp only [List.map_cons, ih]

lemma filter_filter_of_imp {α : Type} (p q : α → Bool) (l : List α)
    (h : ∀ a, p a = true → q a = true) :
    (l.filter q).filter p = l.filter p := by
  induction l with
  | nil => rfl
  | cons a t ih =>
    by_cases hq : q a
    · by_cases hp : p a <;> simp [hq, hp, ih]
    · have hp : p a = false := by
        cases hpa : p a
        · rfl
        · exact absurd (h a hpa) (by simp [hq])
      simp [hq, hp, ih]

lemma filterMap_map_some {α β : Type} (f : α → β) (g : β → Option α)
    (l : List α) (h : ∀ x ∈ l, g (f x) = some x) :
    (l.map f).filterMap g = l := by
  induction l with
  | nil => rfl
  | cons a t ih =>
    rw [List.map_cons, List.filterMap_cons, h a (List.mem_cons_self _ _),
      ih (fun x hx => h x (List.mem_cons_of_mem _ hx))]

/-! ## The round trip at the character level -/

lemma joinWith_cons_ne_nil (x : Chars) (hx : x ≠ []) (xs : List Chars) :
    joinWith [',', ' '] (x :: xs) ≠ [] := by
  cases xs with
  | nil => simpa [joinWith]
  | cons y ys => simp [joinWith, hx]

lemma parse_segment_fmt {p : Chars × Int} (hpos : 0 ≤ p.2)
    (hstrip : stripChars p.1 = p.1) (hcolon : ':' ∉ p.1) :
    parse_segment (buildFmt p) = some p := by
  unfold parse_segment buildFmt
  rw [hstrip, splitFirst_append hcolon]
  simp only [hstrip, stripChars_intStr, pyIsDigit_intStr,
    decide_eq_true hpos, if_true]
  rw [charsToNat_intStr hpos]

lemma parse_segment_space_fmt {p : Chars × Int} (hpos : 0 ≤ p.2)
    (hstrip : stripChars p.1 = p.1) (hcolon : ':' ∉ p.1) :
    parse_segment (' ' :: buildFmt p) = some p := by
  unfold parse_segment buildFmt
  have hsp : splitFirst ':' (' ' :: (stripChars p.1 ++ ':' :: intStr p.2)) =
      some (' ' :: p.1, intStr p.2) := by
    rw [hstrip]
    simp only [splitFirst, if_neg (by decide : ¬ (' ' = ':'))]
    rw [splitFirst_append hcolon]
  rw [hsp]
  simp only [stripChars_cons_space, hstrip, stripChars_intStr,
    pyIsDigit_intStr, decide_eq_true hpos, if_true]
  rw [charsToNat_intStr hpos]

lemma fmt_no_comma {p : Chars × Int}
    (hstrip : stripChars p.1 = p.1) (hcomma : ',' ∉ p.1) :
    ',' ∉ buildFmt p := by
  unfold buildFmt
  rw [hstrip]
  intro hm
  rcases List.mem_append.mp hm with hm | hm
  · exact hcomma hm
  · rcases List.mem_cons.mp hm with hm | hm
    · exact absurd hm (by decide)
    · rcases mem_intStr hm with hm | hm
      · exact absurd hm (by decide)
      · exact absurd rfl (isDigit_ne_comma hm)

lemma roundtrip_chars (bc : List (Chars × Int))
    (h : ∀ p ∈ bc, 0 < p.2 ∧ p.1 ≠ [] ∧ stripChars p.1 = p.1 ∧
      ',' ∉ p.1 ∧ ':' ∉ p.1) :
    parseMatchingChars (buildMatchingChars bc).1 =
      (bc, (bc.map (fun p => p.2)).sum) := by
  have hkeep : ∀ p ∈ bc, buildKeeps p = true := by
    intro p hp
    obtain ⟨h1, h2, h3, _, _⟩ := h p hp
    unfold buildKeeps
    rw [h3]
    cases hp1 : p.1 with
    | nil => exact absurd hp1 h2
    | cons a t => simp [decide_eq_true (le_of_lt h1)]
  have hfilter : bc.filter buildKeeps = bc := List.filter_eq_self.mpr hkeep
  rw [buildMatchingChars_eq, hfilter]
  cases bc with
  | nil => simp [joinWith, parseMatchingChars]
  | cons p ps =>
    obtain ⟨hp1, hp2, hp3, hp4, hp5⟩ := h p (List.mem_cons_self _ _)
    have hfmtp : buildFmt p ≠ [] := by
      unfold buildFmt
      simp
    have hne : joinWith [',', ' '] ((p :: ps).map buildFmt) ≠ [] := by
      rw [List.map_cons]
      exact joinWith_cons_ne_nil _ hfmtp _
    unfold parseMatchingChars
    rw [if_neg hne]
    have hnc : ∀ q ∈ (p :: ps).map buildFmt, ',' ∉ q := by
      intro q hq
      rcases List.mem_map.mp hq with ⟨r, hr, rfl⟩
      obtain ⟨_, _, hr3, hr4, _⟩ := h r hr
      exact fmt_no_comma hr3 hr4
    rw [List.map_cons] at hnc ⊢
    rw [splitOnChar_join _ _ hnc, parse_foldl]
    have hseg : parse_segment (buildFmt p) = some p :=
      parse_segment_fmt (le_of_lt hp1) hp3 hp5
    have hrest : (ps.map buildFmt).map (fun q => ' ' :: q) =
        ps.map (fun q => ' ' :: buildFmt q) := by
      rw [List.map_map]; rfl
    rw [hrest, List.filterMap_cons, hseg,
      filterMap_map_some _ _ ps (fun x hx => by
        obtain ⟨hx1, _, hx3, _, hx5⟩ := h x (List.mem_cons_of_mem _ hx)
        exact parse_segment_space_fmt (le_of_lt hx1) hx3 hx5)]
    simp

/-! ## String-level glue -/

lemma data_eq_nil_iff {s : String} : s.data = [] ↔ s = "" := by
  constructor
  · intro h
    cases s with
    | mk d =>
      simp only at h
      subst h
      rfl
  · rintro rfl
    rfl

/-- build_matching_string, characterized as a filter followed by a map:
it keeps exactly the entries whose stripped color is non-empty and whose
count is non-negative — zero counts included — and emits them in order,
with the stripped color; the returned total is the sum of the kept
counts. -/
lemma build_matching_string_eq (pairs : List (String × Int)) :
    build_matching_string pairs =
      (String.mk (joinWith [',', ' ']
        ((pairs.filter
            (fun p => !(stripChars p.1.data).isEmpty && decide (0 ≤ p.2))).map
          (fun p => stripChars p.1.data ++ ':' :: intStr p.2))),
       ((pairs.filter
          (fun p => !(stripChars p.1.data).isEmpty && decide (0 ≤ p.2))).map
            (fun p => p.2)).sum) := by
  simp only [build_matching_string, buildMatchingChars_eq]
  rw [show (pairs.map (fun p => (p.1.data, p.2))).filter buildKeeps =
      (pairs.filter
        (fun p => !(stripChars p.1.data).isEmpty && decide (0 ≤ p.2))).map
        (fun p => (p.1.data, p.2)) from
    filter_map_comm _ _ _]
  rw [List.map_map, List.map_map]
  rfl

lemma parseMatchingChars_total (c : Chars) :
    (parseMatchingChars c).2 =
      ((parseMatchingChars c).1.map (fun p => p.2)).sum := by
  unfold parseMatchingChars
  by_cases h : c = []
  · simp [h]
  · rw [if_neg h, parse_foldl]
    simp

lemma parse_matching_string_total (s : String) :
    (parse_matching_string s).2 =
      ((parse_matching_string s).1.map (fun p => p.2)).sum := by
  simp only [parse_matching_string]
  rw [List.map_map]
  exact parseMatchingChars_total s.data

/-! ## Claims -/

/-- C1, counterexample: the claim admits the color "Red " — non-empty,
containing neither a comma nor a colon — but build_matching_string strips
it on write, so the parsed multiset holds ("Red", 2), not ("Red ", 2). -/
theorem c1_round_trip_counterexample :
    ((parse_matching_string (build_matching_string [("Red ", 2)]).1).1 :
        Multiset (String × Int)) ≠
      (([("Red ", 2)] : List (String × Int)) : Multiset (String × Int)) := by
  decide

/-- C1, amended: for every breakdown whose counts are positive and whose
colors are non-empty, contain neither a comma nor a colon, and carry no
surrounding whitespace (strip leaves them unchanged), parsing the built
string returns the breakdown itself — in particular the multisets of
(color, pieces) pairs agree, duplicates counted. -/
theorem c1_round_trip_amended (b : List (String × Int))
    (hb : ∀ p ∈ b, 0 < p.2 ∧ p.1 ≠ "" ∧ stripChars p.1.data = p.1.data ∧
      ',' ∉ p.1.data ∧ ':' ∉ p.1.data) :
    ((parse_matching_string (build_matching_string b).1).1 :
        Multiset (String × Int)) =
      (b : Multiset (String × Int)) := by
  have hlist : (parse_matching_string (build_matching_string b).1).1 = b := by
    simp only [build_matching_string, parse_matching_string]
    have hc : ∀ p ∈ b.map (fun p => (p.1.data, p.2)),
        0 < p.2 ∧ p.1 ≠ [] ∧ stripChars p.1 = p.1 ∧ ',' ∉ p.1 ∧ ':' ∉ p.1 := by
      intro p hp
      rcases List.mem_map.mp hp with ⟨q, hq, rfl⟩
      obtain ⟨h1, h2, h3, h4, h5⟩ := hb q hq
      exact ⟨h1, fun hd => h2 (data_eq_nil_iff.mp hd), h3, h4, h5⟩
    rw [roundtrip_chars _ hc, List.map_map]
    exact map_mk_data b
  rw [hlist]

/-- C1, witness for the amended round trip at a concrete breakdown. -/
theorem c1_round_trip_amended_witness :
    ((parse_matching_string
        (build_matching_string [("Red", 2), ("Blue", 3)]).1).1 :
        Multiset (String × Int)) =
      (([("Red", 2), ("Blue", 3)] : List (String × Int)) :
        Multiset (String × Int)) :=
  c1_round_trip_amended [("Red", 2), ("Blue", 3)] (by decide)

/-- C2, counterexample: build_matching_string does not suppress zero
counts — str(0) is all digits, so the entry is kept — and therefore does
not serialize the example breakdown to "Blue:3". -/
theorem c2_zero_suppression_counterexample :
    (build_matching_string [("Red", 0), ("Blue", 3)]).1 = "Red:0, Blue:3" ∧
    (build_matching_string [("Red", 0), ("Blue", 3)]).1 ≠ "Blue:3" := by
  constructor
  · decide
  · decide

/-- C2, amended: the show_add_form join omits every entry with pieces at
most zero — it is unchanged by dropping them, an all-non-positive
breakdown serializes to the empty string, and the example yields
"Blue:3" — while build_matching_string keeps exactly the entries with a
non-empty stripped color and a non-negative count, zero included, in
iteration order joined by a comma and space: the example yields
"Red:0, Blue:3", and only the empty case yields the empty string. -/
theorem c2_serializers_amended :
    (∀ items : List (String × Int),
      show_add_form_matching items =
        show_add_form_matching (items.filter (fun p => 0 < p.2))) ∧
    (∀ items : List (String × Int), (∀ p ∈ items, p.2 ≤ 0) →
      show_add_form_matching items = "") ∧
    (∀ pairs : List (String × Int),
      build_matching_string pairs =
        (String.mk (joinWith [',', ' ']
          ((pairs.filter
              (fun p => !(stripChars p.1.data).isEmpty && decide (0 ≤ p.2))).map
            (fun p => stripChars p.1.data ++ ':' :: intStr p.2))),
         ((pairs.filter
            (fun p => !(stripChars p.1.data).isEmpty && decide (0 ≤ p.2))).map
              (fun p => p.2)).sum)) ∧
    show_add_form_matching [("Red", 0), ("Blue", 3)] = "Blue:3" ∧
    (build_matching_string [("Red", 0), ("Blue", 3)]).1 = "Red:0, Blue:3" ∧
    (build_matching_string []).1 = "" := by
  refine ⟨?_, ?_, build_matching_string_eq, by decide, by decide, by decide⟩
  · intro items
    unfold show_add_form_matching
    rw [filter_filter_of_imp _ _ _ (fun a ha => ha)]
  · intro items h
    unfold show_add_form_matching
    have : items.filter (fun p => 0 < p.2) = [] := by
      rw [List.filter_eq_nil_iff]
      intro p hp
      simp only [decide_eq_true_eq, not_lt]
      exact h p hp
    rw [this]
    rfl

/-- C2, witness: an all-non-positive breakdown serializes, through the
show_add_form join, to the empty string. -/
theorem c2_serializers_amended_witness :
    show_add_form_matching [("Red", 0), ("Gold", -2)] = "" :=
  c2_serializers_amended.2.1 [("Red", 0), ("Gold", -2)] (by decide)

/-- C3: parse_matching_string is total by construction; it splits on
commas and keeps, per segment, exactly what parse_segment accepts —
segments without a colon or with a non-digit count side are skipped,
both sides are stripped — and on the claim's example it returns exactly
("Red", 2) and ("Green", 5) with total 7. -/
theorem c3_tolerant_parse :
    (∀ s : String, (parse_matching_string s).1 =
      ((splitOnChar ',' s.data).filterMap parse_segment).map
        (fun p => (String.mk p.1, p.2))) ∧
    parse_matching_string "Red:2, junk, Blue:x, Green:5" =
      ([("Red", 2), ("Green", 5)], 7) := by
  constructor
  · intro s
    simp only [parse_matching_string, parseMatchingChars]
    by_cases h : s.data = []
    · rw [if_pos h, h]
      rfl
    · rw [if_neg h, parse_foldl]
      simp
  · decide

/-- C4, counterexample: the dict accumulation of show_add_form merges
duplicate colors by overwriting, so the example breakdown totals 4, not
the claimed 6. -/
theorem c4_duplicates_counterexample :
    show_add_form_pcs [("Red", 2), ("Red", 3), ("Blue", 1)] = 4 ∧
    show_add_form_pcs [("Red", 2), ("Red", 3), ("Blue", 1)] ≠ 6 := by
  constructor
  · decide
  · decide

/-- C4, amended: the running total of parse_matching_string counts every
parsed pair, duplicates of the same color included — it always equals the
sum over the returned pair list, and the example string totals 6 — while
show_add_form accumulates rows into a dict keyed by color, so a duplicate
color overwrites the earlier value and the same breakdown totals 4. -/
theorem c4_total_amended :
    (∀ s : String, (parse_matching_string s).2 =
      ((parse_matching_string s).1.map (fun p => p.2)).sum) ∧
    parse_matching_string "Red:2, Red:3, Blue:1" =
      ([("Red", 2), ("Red", 3), ("Blue", 1)], 6) ∧
    show_add_form_pcs [("Red", 2), ("Red", 3), ("Blue", 1)] = 4 := by
  exact ⟨parse_matching_string_total, by decide, by decide⟩

/-- C5, counterexample: at the claim's scenario — an existing record
("Acme", "D100"), lookup key ("ACME", "d100"), self-exclusion on update —
neither cited exclude-capable check returns a Bool at all: dno_exists
raises TypeError on every call (the fetched row tuple is compared with an
integer) and the edit-form check raises NameError (the name existing is
unbound there), so neither "returns false" nor "returns true" holds; the
count query dno_exists runs before crashing is case-sensitive and does
not even match "d100" against the stored "D100". -/
theorem c5_checkunique_counterexample :
    dno_exists [⟨1, "D100"⟩] "d100" none = Except.error PyError.typeError ∧
    edit_form_conflict [⟨"Acme", "D100"⟩] "ACME" "D100" 2 =
      Except.error PyError.nameError ∧
    dno_exists_query_count [⟨1, "D100"⟩] "d100" none = 0 := by
  refine ⟨rfl, rfl, ?_⟩
  decide

/-- C5, amended: the only functioning duplicate check is the
show_add_form scan, which compares company and design number
case-insensitively — the key ("ACME", "d100") conflicts with the stored
("Acme", "D100") and an unrelated key does not — but supports no exclude
key. The two exclude-capable checks never return: dno_exists raises
TypeError on every call and the edit-form check raises NameError before
any comparison, so no code path allows updating a record to its own key.
The count query dno_exists executes before crashing compares only the
design number, case-sensitively, excluding by row id. -/
theorem c5_checkunique_amended :
    add_form_conflict [⟨"Acme", "D100"⟩] "ACME" "d100" = true ∧
    add_form_conflict [⟨"Acme", "D100"⟩] "Other" "D999" = false ∧
    (∀ (rows : List DbProduct) (dno : String) (ex : Option Int),
      dno_exists rows dno ex = Except.error PyError.typeError) ∧
    (∀ (recs : List SheetRecord) (c d : String) (rn : Int),
      edit_form_conflict recs c d rn = Except.error PyError.nameError) ∧
    dno_exists_query_count [⟨1, "D100"⟩] "d100" none = 0 ∧
    dno_exists_query_count [⟨1, "D100"⟩] "D100" none = 1 ∧
    dno_exists_query_count [⟨1, "D100"⟩] "D100" (some 1) = 0 ∧
    dno_exists_query_count [⟨2, "D100"⟩] "D100" (some 1) = 1 := by
  refine ⟨by decide, by decide, fun _ _ _ => rfl, fun _ _ _ _ => rfl,
    ?_, ?_, ?_, ?_⟩ <;> decide

/-- C6: the subtraction itself is unclamped — pending 5 minus 8 is -3 —
but load_table_dataframe reads tuple indexes 27 and 28 of the 12-column
products row, the IndexError is swallowed by the bare except, and the
computed pending is 0 instead of the claimed difference. -/
theorem c6_pending_code_bug :
    pendingPieces 5 8 = -3 ∧
    load_table_pending [DbVal.int 1, DbVal.text "Acme", DbVal.text "D100",
      DbVal.text "Red:5", DbVal.text "", DbVal.int 5, DbVal.int 8,
      DbVal.text "", DbVal.text "WITH LACE", DbVal.int 10, DbVal.int 50,
      DbVal.text ""] = 0 := by
  constructor
  · decide
  · decide

/-- C7: the import handler leaves the record store unchanged in every
case, and reports the schema mismatch error exactly when the first CSV
row — None for an empty file — differs from the expected header list,
compared order-sensitively; only a matching header reaches the row loop. -/
theorem c7_import_schema_strict (csvRows : List (List String))
    (db : List (List DbVal)) :
    csv_import csvRows db =
      (db, if csvRows.head? = some expected_csv_header then
        CsvImportOutcome.ok 0 else CsvImportOutcome.schemaMismatch) := by
  have hstep : ∀ (acc : List (List DbVal) × Nat) (row : List String),
      csv_import_row_step acc row = acc := by
    intro acc row
    unfold csv_import_row_step
    split <;> rfl
  have hfold : ∀ (rows : List (List String)) (acc : List (List DbVal) × Nat),
      rows.foldl csv_import_row_step acc = acc := by
    intro rows
    induction rows with
    | nil => intro acc; rfl
    | cons r t ih =>
      intro acc
      rw [List.foldl_cons, hstep acc r]
      exact ih acc
  cases csvRows with
  | nil => simp [csv_import]
  | cons h t =>
    by_cases hh : h = expected_csv_header
    · simp [csv_import, hh, hfold]
    · simp [csv_import, hh]

/-- C9: the two components returned by each function are consistent: the
total of parse_matching_string equals the sum over its returned pair
list, and the total of build_matching_string equals the sum of the counts
of exactly the entries it keeps in the emitted string — those with a
non-empty stripped color and a non-negative count. -/
theorem c9_totals_consistent :
    (∀ s : String, (parse_matching_string s).2 =
      ((parse_matching_string s).1.map (fun p => p.2)).sum) ∧
    (∀ pairs : List (String × Int), (build_matching_string pairs).2 =
      ((pairs.filter
          (fun p => !(stripChars p.1.data).isEmpty && decide (0 ≤ p.2))).map
        (fun p => p.2)).sum) := by
  refine ⟨parse_matching_string_total, ?_⟩
  intro pairs
  rw [build_matching_string_eq]

/-- C10: parse_matching_string accepts a segment with an empty color —
":5" parses to the single pair ("", 5) — while build_matching_string is
unchanged by dropping every pair whose stripped color is empty, i.e. it
omits them. -/
theorem c10_empty_color :
    parse_matching_string ":5" = ([("", 5)], 5) ∧
    (∀ pairs : List (String × Int),
      build_matching_string pairs =
        build_matching_string
          (pairs.filter (fun p => !(stripChars p.1.data).isEmpty))) := by
  constructor
  · decide
  · intro pairs
    rw [build_matching_string_eq, build_matching_string_eq,
      filter_filter_of_imp _ _ pairs (fun a ha => ?_)]
    exact (Bool.and_eq_true _ _ ▸ ha).1
